import Mathlib

/-!
Verification of the MongoDB table model (`mongo_table_model.py`).

This file gives a shallow embedding of `BaseMongoTableModel`: the BSON value
model, the per-instance LRU-cached `documentAtIndex`, `updateHeader` with its
depth-bounded key discovery, `data`, `headerData`, `value`,
`documentIdAtIndex` and `setQuery`, together with theorems settling the
frozen claims about deletion reconciliation, query reset, header growth,
memoization, error framing and sentinel rendering.

Modelling conventions:
* Machine-level Qt objects are replaced by explicit data: the stream of
  begin/end structural notifications is recorded in an `events` list, and
  `QVariant()` (the absent sentinel) is a constructor of `PyValue`.
* The pymongo cursor is abstract: a positional fetch function returning a
  document, an index-unavailable failure (`IndexError`) or a transport
  failure (`PyMongoError`), plus a total count.  Two instrumentation
  counters (`fetchCount`, `countQueries`) record how often the cursor is
  touched, to make "no fetch happened" and "no count re-query" observable.
* Exceptions are explicit: fallible operations return `Except PyErr`;
  an uncaught Python exception is an `Except.error` result.
* Timestamp values (and their local-time rendering) are outside the
  embedding; no claim below depends on them.
-/

/-- BSON-style values: nested documents, arrays, strings, integers,
booleans and ObjectId scalars. -/
inductive BsonValue where
  | objectId : String → BsonValue
  | str : String → BsonValue
  | int : Int → BsonValue
  | boolean : Bool → BsonValue
  | arr : List BsonValue → BsonValue
  | doc : List (String × BsonValue) → BsonValue

/-- A document: an ordered association list of field name to value
(Python dict with insertion order). -/
abbrev Doc := List (String × BsonValue)

/-- Outcome of a positional fetch `cursor[index]` on the pymongo cursor:
a document, an `IndexError` (index unavailable / result set shrank), or a
`PyMongoError` (transport or connectivity failure). -/
inductive FetchOutcome where
  | found : Doc → FetchOutcome
  | indexError : FetchOutcome
  | pyMongoError : FetchOutcome

/-- Abstract pymongo cursor: positional fetch plus the total count the
server reports when `cursor.count()` is called. -/
structure Cursor where
  fetch : Nat → FetchOutcome
  count : Nat

/-- Python exceptions that can escape the embedded code paths. -/
inductive PyErr where
  | keyError : PyErr
  | typeError : PyErr
deriving DecidableEq

/-- Qt structural-change notifications emitted by the model, in order. -/
inductive ModelEvent where
  | beginRemoveRows (first last : Nat)
  | endRemoveRows
  | beginInsertColumns (first last : Nat)
  | endInsertColumns
  | beginResetModel
  | endResetModel
deriving DecidableEq

/-- Qt data roles used by the model. -/
inductive Role where
  | display | tooltip | user | other
deriving DecidableEq

/-- Header orientations (`Qt.Horizontal`, `Qt.Vertical`, anything else). -/
inductive QtOrientation where
  | horizontal | vertical | other
deriving DecidableEq

/-- A Python value as returned by `data`/`headerData`/`value`:
the absent `QVariant()` sentinel, Python `None`, a string, an integer
(vertical header row numbers), or an underlying BSON value (user role). -/
inductive PyValue where
  | qvariant : PyValue
  | pyNone : PyValue
  | str : String → PyValue
  | int : Int → PyValue
  | bson : BsonValue → PyValue

/-- State of one `BaseMongoTableModel` instance.  `header`, `cursor` and
`n_docs` are the Python attributes; `cache` is the per-instance
`functools.lru_cache` of `documentAtIndex` (most recently used first);
`events` records emitted Qt notifications; `fetchCount` and `countQueries`
instrument cursor accesses. -/
structure ModelState where
  maxNesting : Nat
  cacheSize : Nat
  header : List String
  cursor : Option Cursor
  nDocs : Nat
  cache : List (Nat × Option Doc)
  events : List ModelEvent
  fetchCount : Nat
  countQueries : Nat

/-- `BaseMongoTableModel.__init__`: empty header, no cursor, zero rows,
instance cache size recorded. -/
def initState (maxNesting cacheSize : Nat) : ModelState :=
  { maxNesting := maxNesting
    cacheSize := cacheSize
    header := []
    cursor := none
    nDocs := 0
    cache := []
    events := []
    fetchCount := 0
    countQueries := 0 }

/-- `rowCount`: 0 for a valid parent, else the number of documents. -/
def rowCount (s : ModelState) (parentIsValid : Bool) : Nat :=
  if parentIsValid then 0 else s.nDocs

/-- `columnCount`: the current header length. -/
def columnCount (s : ModelState) : Nat :=
  s.header.length

/-- `empty`: whether the model has no rows. -/
def emptyModel (s : ModelState) : Bool :=
  rowCount s false == 0

/-- Python list subscription `l[i]`: non-negative indices from the front,
negative indices from the back (`l[-1]` is the last element), `none` when
the index is out of range (`IndexError`). -/
def pyListGet (l : List String) (i : Int) : Option String :=
  if 0 ≤ i then l.get? i.toNat
  else if 0 ≤ (l.length : Int) + i then l.get? ((l.length : Int) + i).toNat
  else none

/-- Association lookup in a cache (first entry with the key wins). -/
def lookupCache : List (Nat × Option Doc) → Nat → Option (Option Doc)
  | [], _ => none
  | (k, v) :: rest, i => if k = i then some v else lookupCache rest i

/-- Association lookup of a field in a document. -/
def lookupField : List (String × BsonValue) → String → Option BsonValue
  | [], _ => none
  | (k, v) :: rest, f => if k = f then some v else lookupField rest f

/-- `functools.lru_cache` hit: the entry is moved to the front (most
recently used). -/
def cacheTouch (cache : List (Nat × Option Doc)) (i : Nat) (v : Option Doc) :
    List (Nat × Option Doc) :=
  (i, v) :: cache.filter (fun e => !(e.1 == i))

/-- `functools.lru_cache` miss: the computed value is stored as most
recently used and the least recently used entries beyond the capacity are
evicted. -/
def cacheEvictInsert (size : Nat) (cache : List (Nat × Option Doc)) (i : Nat)
    (v : Option Doc) : List (Nat × Option Doc) :=
  ((i, v) :: cache.filter (fun e => !(e.1 == i))).take size

/-- Body of `BaseMongoTableModel.documentAtIndex` (the undecorated
function).  `self.cursor[index]` on a `None` cursor raises `TypeError`.
On `IndexError` the count is re-queried, rows are removed when the count
shrank (one begin/end remove-rows pair bracketing the `n_docs` update),
the cache is cleared and `None` is returned.  On `PyMongoError` just
`None` is returned. -/
def documentAtIndexBody (s : ModelState) (i : Nat) :
    Except PyErr (Option Doc × ModelState) :=
  match s.cursor with
  | none => Except.error PyErr.typeError
  | some cur =>
    match cur.fetch i with
    | FetchOutcome.found d =>
        Except.ok (some d, { s with fetchCount := s.fetchCount + 1 })
    | FetchOutcome.indexError =>
        let n := cur.count
        let s1 := { s with
                      fetchCount := s.fetchCount + 1
                      countQueries := s.countQueries + 1 }
        let s2 :=
          if n < s1.nDocs then
            { s1 with
                events := s1.events ++
                  [ModelEvent.beginRemoveRows n (s1.nDocs - 1),
                   ModelEvent.endRemoveRows]
                nDocs := n }
          else s1
        Except.ok (none, { s2 with cache := [] })
    | FetchOutcome.pyMongoError =>
        Except.ok (none, { s with fetchCount := s.fetchCount + 1 })

/-- `documentAtIndex` as decorated by `instance_lru_cache`: a cache hit
returns the stored value (moved to most recently used) without running the
body; a miss runs the body and memoizes its result, evicting beyond the
instance capacity.  The capacity is the instance `cache_size`, because
`__init__` always sets `_instance_lru_cache_size`. -/
def documentAtIndex (s : ModelState) (i : Nat) :
    Except PyErr (Option Doc × ModelState) :=
  match lookupCache s.cache i with
  | some v => Except.ok (v, { s with cache := cacheTouch s.cache i v })
  | none =>
    match documentAtIndexBody s i with
    | Except.error e => Except.error e
    | Except.ok (v, s1) =>
        Except.ok (v, { s1 with cache := cacheEvictInsert s1.cacheSize s1.cache i v })

/-- Dotted-path qualification of a key under an optional root
(`getKeys` local variable `nested_key`). -/
def qualifyKey (root : Option String) (key : String) : String :=
  match root with
  | some r => r ++ "." ++ key
  | none => key

/-- The recursive helper `getKeys` of `updateHeader`: collect the dotted
keys of a document.  A key is expanded into sub-paths exactly when its
value is itself a document and the remaining depth budget is positive;
otherwise it is kept as a single flat key.  (Recursion is structured on
the depth budget; at each level the fields are traversed in order, exactly
as the Python loop does.) -/
def getKeys : Nat → Option String → List (String × BsonValue) → List String
  | 0, root, fields => fields.map (fun p => qualifyKey root p.1)
  | d + 1, root, fields =>
      (fields.map (fun p =>
        match p.2 with
        | BsonValue.doc sub => getKeys d (some (qualifyKey root p.1)) sub
        | _ => [qualifyKey root p.1])).flatten

/-- Whether a BSON value is a nested document (`type(value) is dict`). -/
def isDocValue : BsonValue → Bool
  | BsonValue.doc _ => true
  | _ => false

/-- Code-point lexicographic comparison of character lists, as Python
compares strings. -/
def charListLe : List Char → List Char → Bool
  | [], _ => true
  | _ :: _, [] => false
  | x :: xs, y :: ys =>
      if x.val.toNat < y.val.toNat then true
      else if y.val.toNat < x.val.toNat then false
      else charListLe xs ys

/-- The Python string order used by `sorted`: code-point lexicographic. -/
def strLe (a b : String) : Bool :=
  charListLe a.data b.data

/-- Deduplication keeping first occurrences, with an accumulator of keys
already seen (`list(dict.fromkeys(...))` semantics). -/
def dedupKeepFirstAux : List String → List String → List String
  | _, [] => []
  | seen, x :: xs =>
      if x ∈ seen then dedupKeepFirstAux seen xs
      else x :: dedupKeepFirstAux (x :: seen) xs

/-- `list(dict.fromkeys(l))`: duplicates removed, first occurrences kept. -/
def dedupKeepFirst (l : List String) : List String :=
  dedupKeepFirstAux [] l

/-- One header rebuild of `updateHeader`:
`sorted(self.header + [key])` followed by `list(dict.fromkeys(...))`. -/
def headerInsert (header : List String) (key : String) : List String :=
  dedupKeepFirst (List.insertionSort (fun a b => strLe a b = true) (header ++ [key]))

/-- The new keys a document contributes:
`set(doc_keys).difference(self.header)`.  Python set iteration order is
unspecified; it is modelled as first-occurrence order of the discovered
keys.  Every property stated below about the result of the insertion loop
is independent of this order. -/
def newHeaderKeys (s : ModelState) (doc : Doc) : List String :=
  (dedupKeepFirst (getKeys s.maxNesting none doc)).filter
    (fun k => !(s.header.contains k))

/-- One iteration of the `updateHeader` insertion loop: rebuild the sorted
header with the key, look up its section, and bracket the header update
with one begin/end insert-columns pair at that section. -/
def headerStep (st : ModelState) (key : String) : ModelState :=
  let h := headerInsert st.header key
  let sec := h.indexOf key
  { st with
      header := h
      events := st.events ++
        [ModelEvent.beginInsertColumns sec sec, ModelEvent.endInsertColumns] }

/-- `BaseMongoTableModel.updateHeader`. -/
def updateHeader (s : ModelState) (doc : Doc) : ModelState :=
  (newHeaderKeys s doc).foldl headerStep s

/-- Python repr of a BSON value.  The exact text of container and scalar
reprs plays no role in any claim; only that rendering is a deterministic
function of the value. -/
def pyReprOfBson : BsonValue → String
  | BsonValue.objectId s => "ObjectId(" ++ s ++ ")"
  | BsonValue.str s => "\x27" ++ s ++ "\x27"
  | BsonValue.int n => toString n
  | BsonValue.boolean b => cond b "True" "False"
  | BsonValue.arr l =>
      "[" ++ String.intercalate ", " (l.attach.map (fun x => pyReprOfBson x.1)) ++ "]"
  | BsonValue.doc f =>
      "\x7b" ++
        String.intercalate ", "
          (f.attach.map (fun x => "\x27" ++ x.1.1 ++ "\x27: " ++ pyReprOfBson x.1.2)) ++
        "\x7d"
decreasing_by
  · have := List.sizeOf_lt_of_mem x.2
    simp only [BsonValue.arr.sizeOf_spec]
    omega
  · have h1 := List.sizeOf_lt_of_mem x.2
    have h2 : sizeOf x.1.2 < sizeOf x.1 := by
      rcases x with ⟨⟨a, b⟩, hx⟩
      simp
    simp only [BsonValue.doc.sizeOf_spec]
    omega

/-- Python `str` of a BSON value: a string is itself, everything else
falls back to its repr. -/
def pyStrOfBson : BsonValue → String
  | BsonValue.str s => s
  | v => pyReprOfBson v

/-- Display-role rendering in `data`: an ObjectId renders as its canonical
string, everything else through default string conversion. -/
def renderDisplay (v : BsonValue) : String :=
  match v with
  | BsonValue.objectId s => s
  | v => pyStrOfBson v

/-- Modelled from the spec: detail-mode pretty rendering of a raw value
(`bson.json_util.dumps`, a library external to this repository).  Only
determinism matters to the claims; it is modelled by the repr. -/
def bsonDumps (v : BsonValue) : String :=
  pyReprOfBson v

/-- Role dispatch at the end of `data`. -/
def roleRender (role : Role) (v : BsonValue) : PyValue :=
  match role with
  | Role.display => PyValue.str (renderDisplay v)
  | Role.tooltip => PyValue.str (bsonDumps v)
  | Role.user => PyValue.bson v
  | Role.other => PyValue.qvariant

/-- Helper of `pySplit`: split a character list on a separator character,
keeping empty pieces, with an accumulator of the current piece reversed. -/
def pySplitAux (sep : Char) : List Char → List Char → List String
  | acc, [] => [String.mk acc.reverse]
  | acc, c :: cs =>
      if c = sep then String.mk acc.reverse :: pySplitAux sep [] cs
      else pySplitAux sep (c :: acc) cs

/-- Python `s.split(sep)` for a one-character separator (the source splits
on the one-character string "."): every occurrence splits, empty pieces
are kept, and a string without the separator yields itself. -/
def pySplit (sep : Char) (s : String) : List String :=
  pySplitAux sep [] s.data

/-- The nested-path walk of `data`: `value = value[key]` for each key.
Subscripting a document with a missing key raises `KeyError`; subscripting
any non-document value with a string key raises `TypeError`. -/
def walkPath : BsonValue → List String → Except PyErr BsonValue
  | v, [] => Except.ok v
  | BsonValue.doc fields, k :: ks =>
      match lookupField fields k with
      | some v => walkPath v ks
      | none => Except.error PyErr.keyError
  | _, _ :: _ => Except.error PyErr.typeError

/-- Validity of a `QModelIndex` created by `self.index(row, column)`. -/
def isValidIndex (s : ModelState) (row col : Int) : Bool :=
  decide (0 ≤ row) && decide (row < (s.nDocs : Int)) &&
  decide (0 ≤ col) && decide (col < (s.header.length : Int))

/-- Tail of `BaseMongoTableModel.data` once a document was fetched:
update the header from the document, resolve the header key at the column
of the (already updated) header, split it on dots and walk the path;
`IndexError` and `KeyError` are caught and yield the absent sentinel,
while a `TypeError` (a path prefix resolving to a non-document value) is
not caught and propagates out of `data`.  The full `data` (below) first
checks index validity and fetches the document through the memoized
`documentAtIndex`, returning the absent sentinel for an invalid index or
an absent document. -/
def dataFetched (doc : Doc) (s1 : ModelState) (col : Int) (role : Role) :
    Except PyErr (PyValue × ModelState) :=
  let s2 := updateHeader s1 doc
  match pyListGet s2.header col with
  | none => Except.ok (PyValue.qvariant, s2)
  | some key =>
    match walkPath (BsonValue.doc doc) (pySplit (Char.ofNat 46) key) with
    | Except.error PyErr.keyError => Except.ok (PyValue.qvariant, s2)
    | Except.error e => Except.error e
    | Except.ok v => Except.ok (roleRender role v, s2)

/-- `BaseMongoTableModel.data`, assembled from the parts above. -/
def dataE (s : ModelState) (row col : Int) (role : Role) :
    Except PyErr (PyValue × ModelState) :=
  if isValidIndex s row col = false then Except.ok (PyValue.qvariant, s)
  else
    match documentAtIndex s row.toNat with
    | Except.error e => Except.error e
    | Except.ok (none, s1) => Except.ok (PyValue.qvariant, s1)
    | Except.ok (some doc, s1) => dataFetched doc s1 col role

/-- `BaseMongoTableModel.headerData`: non-display roles yield the absent
sentinel; horizontal sections index the header with Python list
subscription, `IndexError` caught as the absent sentinel; vertical
sections yield the one-based row number. -/
def headerData (s : ModelState) (sect : Int) (orientation : QtOrientation)
    (role : Role) : PyValue :=
  if role ≠ Role.display then PyValue.qvariant
  else
    match orientation with
    | QtOrientation.horizontal =>
      match pyListGet s.header sect with
      | some name => PyValue.str name
      | none => PyValue.qvariant
    | QtOrientation.vertical => PyValue.int (sect + 1)
    | QtOrientation.other => PyValue.qvariant

/-- `BaseMongoTableModel.value`: if the field is a known header key,
delegate to `data` at its column; otherwise return Python `None`. -/
def value (s : ModelState) (row : Int) (field : String) (role : Role) :
    Except PyErr (PyValue × ModelState) :=
  if s.header.contains field then
    dataE s row ((s.header.indexOf field : Nat) : Int) role
  else Except.ok (PyValue.pyNone, s)

/-- The string Python prints for a `QVariant()` instance: PyQt5 `QVariant`
has no custom `__str__`, so `str` yields the default object repr (which
additionally carries a memory address; only the fact that it differs from
every other rendering, in particular from "None", is used below). -/
def qvariantStr : String :=
  "<PyQt5.QtCore.QVariant object>"

/-- Python `str` applied to a value returned by `data`/`value`. -/
def pyStr : PyValue → String
  | PyValue.qvariant => qvariantStr
  | PyValue.pyNone => "None"
  | PyValue.str s => s
  | PyValue.int n => toString n
  | PyValue.bson v => pyStrOfBson v

/-- `BaseMongoTableModel.documentIdAtIndex`: `str(self.value(index, "_id"))`. -/
def documentIdAtIndex (s : ModelState) (i : Int) :
    Except PyErr (String × ModelState) :=
  match value s i "_id" Role.user with
  | Except.error e => Except.error e
  | Except.ok (v, s1) => Except.ok (pyStr v, s1)

/-- Abstract document store: `db[collection].find(query)` (already sorted
on the identifier, no cursor timeout) and
`db[collection].count_documents(query)`. -/
structure MongoStore where
  find : String → Doc → Cursor
  countDocuments : String → Doc → Nat

/-- `BaseMongoTableModel.setQuery`: begin reset, rebind the cursor,
recount, clear the cache, reset the header to the identifier column, end
reset. -/
def setQuery (s : ModelState) (db : MongoStore) (collection : String)
    (query : Doc) : ModelState :=
  let s0 := { s with events := s.events ++ [ModelEvent.beginResetModel] }
  let s1 := { s0 with
                cursor := some (db.find collection query)
                nDocs := db.countDocuments collection query }
  let s2 := { s1 with cache := [] }
  let s3 := { s2 with header := ["_id"] }
  { s3 with events := s3.events ++ [ModelEvent.endResetModel] }

/-- The sequence of insert-columns notifications the `updateHeader` loop
emits when inserting the given keys into the given header, each pair named
after the index of its key in the header as updated at that step. -/
def insertEventTrace : List String → List String → List ModelEvent
  | _, [] => []
  | header, k :: ks =>
      let h := headerInsert header k
      let sec := h.indexOf k
      ModelEvent.beginInsertColumns sec sec :: ModelEvent.endInsertColumns ::
        insertEventTrace h ks

/-! ### Concrete exemplar stores, cursors and model states

These are used by the closed counterexample and witness theorems below.
Each one is an ordinary reachable configuration of the model: a cursor a
query would produce, together with the attribute values the Python object
would hold at that point. -/

/-- The spec example document for nested discovery. -/
def exampleNestedDoc : Doc :=
  [("_id", BsonValue.int 1),
   ("a", BsonValue.doc [("b", BsonValue.int 2), ("c", BsonValue.int 3)])]

/-- A document whose field "a" holds a scalar, although a sibling
document of the same result set once exposed the nested path "a.b". -/
def c3Doc : Doc := [("_id", BsonValue.int 1), ("a", BsonValue.int 5)]

/-- Cursor that returns `c3Doc` at every index. -/
def c3Cursor : Cursor := { fetch := fun _ => FetchOutcome.found c3Doc, count := 1 }

/-- Model state whose header already discovered the keys "a" (from a
document with a scalar there) and "a.b" (from a document with a nested
document there). -/
def c3State : ModelState :=
  { maxNesting := 1, cacheSize := 50, header := ["_id", "a", "a.b"],
    cursor := some c3Cursor, nDocs := 1, cache := [], events := [],
    fetchCount := 0, countQueries := 0 }

/-- Cursor whose result set shrank to 2 documents: positional fetches
beyond the new extent raise `IndexError` and a recount reports 2. -/
def w1Cursor : Cursor := { fetch := fun _ => FetchOutcome.indexError, count := 2 }

/-- A cached document for the deletion-reconciliation exemplar. -/
def w1Doc : Doc := [("_id", BsonValue.int 0)]

/-- Model state still believing in 3 rows, with row 0 cached, while the
store shrank to 2 rows. -/
def w1State : ModelState :=
  { maxNesting := 0, cacheSize := 50, header := ["_id"], cursor := some w1Cursor,
    nDocs := 3, cache := [(0, some w1Doc)], events := [],
    fetchCount := 0, countQueries := 0 }

/-- The state `w1State` reaches after `documentAtIndex 2` reconciles. -/
def w1Post : ModelState :=
  { w1State with
      fetchCount := 1
      countQueries := 1
      nDocs := 2
      events := [ModelEvent.beginRemoveRows 2 2, ModelEvent.endRemoveRows]
      cache := [(2, none)] }

/-- Cursor whose fetches fail with a transport error. -/
def w5Cursor : Cursor := { fetch := fun _ => FetchOutcome.pyMongoError, count := 1 }

/-- Model state over a currently unreachable store. -/
def w5State : ModelState :=
  { maxNesting := 0, cacheSize := 50, header := ["_id"], cursor := some w5Cursor,
    nDocs := 1, cache := [], events := [], fetchCount := 0, countQueries := 0 }

/-- The state `w5State` reaches after `documentAtIndex 0`: the absent
result is memoized. -/
def w5Post : ModelState := { w5State with fetchCount := 1, cache := [(0, none)] }

/-- Freshly reset model state with the identifier column only. -/
def c4State : ModelState :=
  { maxNesting := 0, cacheSize := 50, header := ["_id"], cursor := none,
    nDocs := 0, cache := [], events := [], fetchCount := 0, countQueries := 0 }

/-- A document exposing one new top-level key. -/
def c4Doc : Doc := [("b", BsonValue.int 1)]

/-- A cached document for the eviction counterexample. -/
def c6Doc : Doc := [("_id", BsonValue.int 1)]

/-- Cursor whose fetches fail with a transport error (recount 2). -/
def c6Cursor : Cursor := { fetch := fun _ => FetchOutcome.pyMongoError, count := 2 }

/-- Model state with cache capacity 1 whose single slot holds row 0. -/
def c6State : ModelState :=
  { maxNesting := 0, cacheSize := 1, header := ["_id"], cursor := some c6Cursor,
    nDocs := 2, cache := [(0, some c6Doc)], events := [],
    fetchCount := 0, countQueries := 0 }

/-- The state `c6State` reaches after `documentAtIndex 1`: memoizing the
absent result evicted the cached row 0. -/
def c6Post : ModelState := { c6State with fetchCount := 1, cache := [(1, none)] }

/-- A store over an empty collection (any store works for the header
counterexamples). -/
def c8Store : MongoStore :=
  { find := fun _ _ => { fetch := fun _ => FetchOutcome.indexError, count := 0 },
    countDocuments := fun _ _ => 0 }

/-- Model state with the identifier column only, for header queries. -/
def c9State : ModelState :=
  { maxNesting := 0, cacheSize := 50, header := ["_id"], cursor := none,
    nDocs := 0, cache := [], events := [], fetchCount := 0, countQueries := 0 }

/-- Cursor whose fetches fail with a transport error. -/
def c10Cursor : Cursor := { fetch := fun _ => FetchOutcome.pyMongoError, count := 1 }

/-- Model state with one row whose document is unavailable. -/
def c10State : ModelState :=
  { maxNesting := 0, cacheSize := 50, header := ["_id"], cursor := some c10Cursor,
    nDocs := 1, cache := [], events := [], fetchCount := 0, countQueries := 0 }

/-- The state `c10State` reaches after the failed identifier lookup. -/
def c10Post : ModelState := { c10State with fetchCount := 1, cache := [(0, none)] }

/-- Cursor whose result set shrank to nothing: fetches raise `IndexError`
and a recount reports 0. -/
def c10DelCursor : Cursor := { fetch := fun _ => FetchOutcome.indexError, count := 0 }

/-- Model state still believing in one row whose document was deleted
out-of-band. -/
def c10DelState : ModelState :=
  { maxNesting := 0, cacheSize := 50, header := ["_id"], cursor := some c10DelCursor,
    nDocs := 1, cache := [], events := [], fetchCount := 0, countQueries := 0 }

/-- The state `c10DelState` reaches after the identifier lookup at row 0
triggers deletion reconciliation. -/
def c10DelPost : ModelState :=
  { c10DelState with
      fetchCount := 1
      countQueries := 1
      events := [ModelEvent.beginRemoveRows 0 0, ModelEvent.endRemoveRows]
      nDocs := 0
      cache := [(0, none)] }

/-- Model state whose row 0 already has an absent marker memoized from an
earlier failed fetch. -/
def c10CachedState : ModelState :=
  { maxNesting := 0, cacheSize := 50, header := ["_id"], cursor := some c10Cursor,
    nDocs := 1, cache := [(0, none)], events := [], fetchCount := 0, countQueries := 0 }

/-! ### Order facts about the Python string comparison -/

theorem charListLe_total : ∀ a b : List Char, charListLe a b = true ∨ charListLe b a = true := by
  intro a
  induction a with
  | nil => intro b; left; rfl
  | cons x xs ih =>
    intro b
    cases b with
    | nil => right; rfl
    | cons y ys =>
      by_cases h1 : x.val.toNat < y.val.toNat
      · left; simp [charListLe, h1]
      · by_cases h2 : y.val.toNat < x.val.toNat
        · right; simp [charListLe, h1, h2]
        · rcases ih ys with h | h
          · left; simpa [charListLe, h1, h2] using h
          · right
            simpa [charListLe, h1, h2, Nat.lt_asymm] using h

theorem charListLe_trans : ∀ a b c : List Char,
    charListLe a b = true → charListLe b c = true → charListLe a c = true := by
  intro a
  induction a with
  | nil => intro b c _ _; rfl
  | cons x xs ih =>
    intro b c hab hbc
    cases b with
    | nil => simp [charListLe] at hab
    | cons y ys =>
      cases c with
      | nil => simp [charListLe] at hbc
      | cons z zs =>
        simp only [charListLe] at hab hbc ⊢
        split_ifs at hab hbc ⊢ with h1 h2 h3 h4 h5 h6 <;> try rfl
        all_goals try omega
        exact ih ys zs hab hbc

instance : IsTotal String (fun a b => strLe a b = true) :=
  ⟨fun a b => charListLe_total a.data b.data⟩

instance : IsTrans String (fun a b => strLe a b = true) :=
  ⟨fun a b c => charListLe_trans a.data b.data c.data⟩

/-! ### Deduplication lemmas -/

theorem mem_dedupKeepFirstAux (a : String) :
    ∀ (l seen : List String), a ∈ dedupKeepFirstAux seen l ↔ a ∈ l ∧ a ∉ seen := by
  intro l
  induction l with
  | nil => intro seen; simp [dedupKeepFirstAux]
  | cons x xs ih =>
    intro seen
    by_cases hx : x ∈ seen
    · simp only [dedupKeepFirstAux, if_pos hx, ih]
      constructor
      · rintro ⟨h1, h2⟩
        exact ⟨List.mem_cons_of_mem _ h1, h2⟩
      · rintro ⟨h1, h2⟩
        rcases List.mem_cons.mp h1 with rfl | h1
        · exact absurd hx h2
        · exact ⟨h1, h2⟩
    · simp only [dedupKeepFirstAux, if_neg hx, List.mem_cons, ih]
      constructor
      · rintro (rfl | ⟨h1, h2⟩)
        · exact ⟨Or.inl rfl, hx⟩
        · constructor
          · exact Or.inr h1
          · intro hs
            exact h2 (Or.inr hs)
      · rintro ⟨rfl | h1, h2⟩
        · exact Or.inl rfl
        · by_cases hax : a = x
          · exact Or.inl hax
          · refine Or.inr ⟨h1, ?_⟩
            rintro (h | h)
            · exact hax h
            · exact h2 h

theorem mem_dedupKeepFirst (a : String) (l : List String) :
    a ∈ dedupKeepFirst l ↔ a ∈ l := by
  simp [dedupKeepFirst, mem_dedupKeepFirstAux]

theorem nodup_dedupKeepFirstAux :
    ∀ (l seen : List String), (dedupKeepFirstAux seen l).Nodup := by
  intro l
  induction l with
  | nil => intro seen; simp [dedupKeepFirstAux]
  | cons x xs ih =>
    intro seen
    by_cases hx : x ∈ seen
    · simpa [dedupKeepFirstAux, if_pos hx] using ih seen
    · simp only [dedupKeepFirstAux, if_neg hx]
      refine List.nodup_cons.mpr ⟨fun hmem => ?_, ih (x :: seen)⟩
      have := (mem_dedupKeepFirstAux x xs (x :: seen)).mp hmem
      simp at this

theorem nodup_dedupKeepFirst (l : List String) : (dedupKeepFirst l).Nodup :=
  nodup_dedupKeepFirstAux l []

theorem sublist_dedupKeepFirstAux :
    ∀ (l seen : List String), (dedupKeepFirstAux seen l).Sublist l := by
  intro l
  induction l with
  | nil => intro seen; simp [dedupKeepFirstAux]
  | cons x xs ih =>
    intro seen
    by_cases hx : x ∈ seen
    · simpa [dedupKeepFirstAux, if_pos hx] using (ih seen).cons x
    · simpa [dedupKeepFirstAux, if_neg hx] using (ih (x :: seen)).cons₂ x

theorem dedupKeepFirstAux_eq_self :
    ∀ (l seen : List String), l.Nodup → (∀ a ∈ l, a ∉ seen) →
      dedupKeepFirstAux seen l = l := by
  intro l
  induction l with
  | nil => intro seen _ _; rfl
  | cons x xs ih =>
    intro seen hnd hdisj
    have hx : x ∉ seen := hdisj x (List.mem_cons_self x xs)
    simp only [dedupKeepFirstAux, if_neg hx]
    have hnd' := List.nodup_cons.mp hnd
    refine congrArg (x :: ·) (ih (x :: seen) hnd'.2 ?_)
    intro a ha
    simp only [List.mem_cons]
    push_neg
    exact ⟨fun hax => hnd'.1 (hax ▸ ha), hdisj a (List.mem_cons_of_mem _ ha)⟩

theorem dedupKeepFirst_eq_self (l : List String) (h : l.Nodup) :
    dedupKeepFirst l = l :=
  dedupKeepFirstAux_eq_self l [] h (by simp)

/-! ### Header insertion lemmas -/

theorem mem_headerInsert (a k : String) (h : List String) :
    a ∈ headerInsert h k ↔ a ∈ h ∨ a = k := by
  simp [headerInsert, mem_dedupKeepFirst, List.mem_insertionSort]

theorem nodup_headerInsert (k : String) (h : List String) :
    (headerInsert h k).Nodup :=
  nodup_dedupKeepFirst _

theorem sorted_headerInsert (k : String) (h : List String) :
    (headerInsert h k).Sorted (fun a b => strLe a b = true) := by
  have hs := List.sorted_insertionSort (fun a b => strLe a b = true) (h ++ [k])
  exact List.Pairwise.sublist (sublist_dedupKeepFirstAux _ _) hs

theorem headerInsert_eq_of_nodup (k : String) (h : List String)
    (hnd : h.Nodup) (hk : k ∉ h) :
    headerInsert h k =
      List.insertionSort (fun a b => strLe a b = true) (h ++ [k]) := by
  apply dedupKeepFirst_eq_self
  refine (List.perm_insertionSort _ _).nodup_iff.mpr ?_
  simp [List.nodup_append, hnd, hk]

/-! ### The updateHeader fold -/

theorem headerStep_frame (st : ModelState) (k : String) :
    (headerStep st k).maxNesting = st.maxNesting ∧
    (headerStep st k).cacheSize = st.cacheSize ∧
    (headerStep st k).cursor = st.cursor ∧
    (headerStep st k).nDocs = st.nDocs ∧
    (headerStep st k).cache = st.cache ∧
    (headerStep st k).fetchCount = st.fetchCount ∧
    (headerStep st k).countQueries = st.countQueries := by
  simp [headerStep]

theorem foldl_headerStep_frame :
    ∀ (l : List String) (s : ModelState),
      (l.foldl headerStep s).maxNesting = s.maxNesting ∧
      (l.foldl headerStep s).cacheSize = s.cacheSize ∧
      (l.foldl headerStep s).cursor = s.cursor ∧
      (l.foldl headerStep s).nDocs = s.nDocs ∧
      (l.foldl headerStep s).cache = s.cache ∧
      (l.foldl headerStep s).fetchCount = s.fetchCount ∧
      (l.foldl headerStep s).countQueries = s.countQueries := by
  intro l
  induction l with
  | nil => intro s; simp
  | cons k ks ih =>
    intro s
    have h1 := ih (headerStep s k)
    simpa [headerStep] using h1

theorem foldl_headerStep_mem :
    ∀ (l : List String) (s : ModelState) (a : String),
      a ∈ (l.foldl headerStep s).header ↔ a ∈ s.header ∨ a ∈ l := by
  intro l
  induction l with
  | nil => intro s a; simp
  | cons k ks ih =>
    intro s a
    rw [List.foldl_cons, ih]
    have hh : (headerStep s k).header = headerInsert s.header k := rfl
    rw [hh, mem_headerInsert]
    simp only [List.mem_cons]
    tauto

theorem foldl_headerStep_sorted :
    ∀ (l : List String) (s : ModelState),
      s.header.Sorted (fun a b => strLe a b = true) →
      (l.foldl headerStep s).header.Sorted (fun a b => strLe a b = true) := by
  intro l
  induction l with
  | nil => intro s h; simpa using h
  | cons k ks ih =>
    intro s _
    exact ih (headerStep s k) (sorted_headerInsert k s.header)

theorem foldl_headerStep_nodup :
    ∀ (l : List String) (s : ModelState),
      s.header.Nodup → (l.foldl headerStep s).header.Nodup := by
  intro l
  induction l with
  | nil => intro s h; simpa using h
  | cons k ks ih =>
    intro s _
    exact ih (headerStep s k) (nodup_headerInsert k s.header)

theorem foldl_headerStep_events :
    ∀ (l : List String) (s : ModelState),
      (l.foldl headerStep s).events = s.events ++ insertEventTrace s.header l := by
  intro l
  induction l with
  | nil => intro s; simp [insertEventTrace]
  | cons k ks ih =>
    intro s
    rw [List.foldl_cons, ih]
    simp [headerStep, insertEventTrace, List.append_assoc]

/-! ### updateHeader facts -/

theorem mem_newHeaderKeys (s : ModelState) (doc : Doc) (a : String) :
    a ∈ newHeaderKeys s doc ↔
      a ∈ getKeys s.maxNesting none doc ∧ a ∉ s.header := by
  simp [newHeaderKeys, List.mem_filter, mem_dedupKeepFirst]

theorem updateHeader_frame (s : ModelState) (doc : Doc) :
    (updateHeader s doc).maxNesting = s.maxNesting ∧
    (updateHeader s doc).cacheSize = s.cacheSize ∧
    (updateHeader s doc).cursor = s.cursor ∧
    (updateHeader s doc).nDocs = s.nDocs ∧
    (updateHeader s doc).cache = s.cache ∧
    (updateHeader s doc).fetchCount = s.fetchCount ∧
    (updateHeader s doc).countQueries = s.countQueries :=
  foldl_headerStep_frame _ s

theorem updateHeader_mem (s : ModelState) (doc : Doc) (a : String) :
    a ∈ (updateHeader s doc).header ↔
      a ∈ s.header ∨ a ∈ getKeys s.maxNesting none doc := by
  rw [updateHeader, foldl_headerStep_mem, mem_newHeaderKeys]
  tauto

theorem updateHeader_subset (s : ModelState) (doc : Doc) :
    s.header ⊆ (updateHeader s doc).header := by
  intro a ha
  rw [updateHeader_mem]
  exact Or.inl ha

theorem updateHeader_events (s : ModelState) (doc : Doc) :
    (updateHeader s doc).events =
      s.events ++ insertEventTrace s.header (newHeaderKeys s doc) :=
  foldl_headerStep_events _ s

theorem updateHeader_noop (s : ModelState) (doc : Doc)
    (h : ∀ k ∈ getKeys s.maxNesting none doc, k ∈ s.header) :
    updateHeader s doc = s := by
  have hempty : newHeaderKeys s doc = [] := by
    rw [List.eq_nil_iff_forall_not_mem]
    intro a ha
    rw [mem_newHeaderKeys] at ha
    exact ha.2 (h a ha.1)
  rw [updateHeader, hempty]
  rfl

/-! ### Cache and documentAtIndex lemmas -/

theorem lookupCache_cacheTouch_self (c : List (Nat × Option Doc)) (i : Nat)
    (v : Option Doc) : lookupCache (cacheTouch c i v) i = some v := by
  simp [cacheTouch, lookupCache]

theorem lookupCache_cacheEvictInsert_self (size : Nat) (c : List (Nat × Option Doc))
    (i : Nat) (v : Option Doc) (h : 1 ≤ size) :
    lookupCache (cacheEvictInsert size c i v) i = some v := by
  match size, h with
  | n + 1, _ => simp [cacheEvictInsert, lookupCache, List.take]

theorem documentAtIndex_hit (s : ModelState) (i : Nat) (v : Option Doc)
    (h : lookupCache s.cache i = some v) :
    documentAtIndex s i =
      Except.ok (v, { s with cache := cacheTouch s.cache i v }) := by
  rw [documentAtIndex, h]

theorem documentAtIndex_miss (s : ModelState) (i : Nat)
    (h : lookupCache s.cache i = none) :
    documentAtIndex s i =
      match documentAtIndexBody s i with
      | Except.error e => Except.error e
      | Except.ok (v, s1) =>
          Except.ok (v, { s1 with cache := cacheEvictInsert s1.cacheSize s1.cache i v }) := by
  rw [documentAtIndex, h]

theorem documentAtIndexBody_noCursor (s : ModelState) (i : Nat)
    (hc : s.cursor = none) :
    documentAtIndexBody s i = Except.error PyErr.typeError := by
  rw [documentAtIndexBody, hc]

theorem documentAtIndexBody_found (s : ModelState) (i : Nat) (cur : Cursor)
    (d : Doc) (hc : s.cursor = some cur) (hf : cur.fetch i = FetchOutcome.found d) :
    documentAtIndexBody s i =
      Except.ok (some d, { s with fetchCount := s.fetchCount + 1 }) := by
  simp only [documentAtIndexBody, hc, hf]

theorem documentAtIndexBody_transport (s : ModelState) (i : Nat) (cur : Cursor)
    (hc : s.cursor = some cur) (hf : cur.fetch i = FetchOutcome.pyMongoError) :
    documentAtIndexBody s i =
      Except.ok (none, { s with fetchCount := s.fetchCount + 1 }) := by
  simp only [documentAtIndexBody, hc, hf]

theorem documentAtIndexBody_indexError (s : ModelState) (i : Nat) (cur : Cursor)
    (hc : s.cursor = some cur) (hf : cur.fetch i = FetchOutcome.indexError) :
    documentAtIndexBody s i =
      Except.ok (none,
        if cur.count < s.nDocs then
          { s with
              fetchCount := s.fetchCount + 1
              countQueries := s.countQueries + 1
              events := s.events ++
                [ModelEvent.beginRemoveRows cur.count (s.nDocs - 1),
                 ModelEvent.endRemoveRows]
              nDocs := cur.count
              cache := [] }
        else
          { s with
              fetchCount := s.fetchCount + 1
              countQueries := s.countQueries + 1
              cache := [] }) := by
  simp only [documentAtIndexBody, hc, hf]
  by_cases h : cur.count < s.nDocs <;> simp [h]

/-- Every successful `documentAtIndex` call leaves its own result
memoized under its row index (the instance cache has capacity at least
one), and leaves the capacity field untouched. -/
theorem documentAtIndex_ok_lookup (s : ModelState) (i : Nat) (v : Option Doc)
    (s1 : ModelState) (hsize : 1 ≤ s.cacheSize)
    (hcall : documentAtIndex s i = Except.ok (v, s1)) :
    lookupCache s1.cache i = some v ∧ s1.cacheSize = s.cacheSize := by
  cases hlk : lookupCache s.cache i with
  | some w =>
    rw [documentAtIndex_hit s i w hlk] at hcall
    simp only [Except.ok.injEq, Prod.mk.injEq] at hcall
    obtain ⟨hv, hs⟩ := hcall
    subst hv
    subst hs
    exact ⟨lookupCache_cacheTouch_self _ _ _, rfl⟩
  | none =>
    rw [documentAtIndex_miss s i hlk] at hcall
    cases hc : s.cursor with
    | none =>
      rw [documentAtIndexBody_noCursor s i hc] at hcall
      simp at hcall
    | some cur =>
      cases hf : cur.fetch i with
      | found d =>
        rw [documentAtIndexBody_found s i cur d hc hf] at hcall
        simp only [Except.ok.injEq, Prod.mk.injEq] at hcall
        obtain ⟨hv, hs⟩ := hcall
        subst hv
        subst hs
        exact ⟨lookupCache_cacheEvictInsert_self _ _ _ _ hsize, rfl⟩
      | indexError =>
        rw [documentAtIndexBody_indexError s i cur hc hf] at hcall
        by_cases h : cur.count < s.nDocs
        · simp only [if_pos h, Except.ok.injEq, Prod.mk.injEq] at hcall
          obtain ⟨hv, hs⟩ := hcall
          subst hv
          subst hs
          exact ⟨lookupCache_cacheEvictInsert_self _ _ _ _ hsize, rfl⟩
        · simp only [if_neg h, Except.ok.injEq, Prod.mk.injEq] at hcall
          obtain ⟨hv, hs⟩ := hcall
          subst hv
          subst hs
          exact ⟨lookupCache_cacheEvictInsert_self _ _ _ _ hsize, rfl⟩
      | pyMongoError =>
        rw [documentAtIndexBody_transport s i cur hc hf] at hcall
        simp only [Except.ok.injEq, Prod.mk.injEq] at hcall
        obtain ⟨hv, hs⟩ := hcall
        subst hv
        subst hs
        exact ⟨lookupCache_cacheEvictInsert_self _ _ _ _ hsize, rfl⟩

/-! ### data branch lemmas and read stability -/

theorem dataE_invalid (s : ModelState) (row col : Int) (role : Role)
    (h : isValidIndex s row col = false) :
    dataE s row col role = Except.ok (PyValue.qvariant, s) := by
  simp [dataE, h]

theorem dataE_valid (s : ModelState) (row col : Int) (role : Role)
    (h : isValidIndex s row col = true) :
    dataE s row col role =
      match documentAtIndex s row.toNat with
      | Except.error e => Except.error e
      | Except.ok (none, s1) => Except.ok (PyValue.qvariant, s1)
      | Except.ok (some doc, s1) => dataFetched doc s1 col role := by
  simp [dataE, h]

theorem isValidIndex_transfer (s t : ModelState) (row col : Int)
    (h : isValidIndex s row col = true) (hn : t.nDocs = s.nDocs)
    (hl : s.header.length ≤ t.header.length) :
    isValidIndex t row col = true := by
  simp only [isValidIndex, Bool.and_eq_true, decide_eq_true_eq] at h ⊢
  omega

theorem updateHeader_length_le (s : ModelState) (doc : Doc)
    (hnodup : s.header.Nodup) :
    s.header.length ≤ (updateHeader s doc).header.length :=
  (hnodup.subperm (updateHeader_subset s doc)).length_le

theorem documentAtIndex_some_frame (s : ModelState) (i : Nat) (d : Doc)
    (s1 : ModelState) (hcall : documentAtIndex s i = Except.ok (some d, s1)) :
    s1.header = s.header ∧ s1.nDocs = s.nDocs ∧ s1.maxNesting = s.maxNesting ∧
      s1.cursor = s.cursor ∧ s1.cacheSize = s.cacheSize := by
  cases hlk : lookupCache s.cache i with
  | some w =>
    rw [documentAtIndex_hit s i w hlk] at hcall
    simp only [Except.ok.injEq, Prod.mk.injEq] at hcall
    obtain ⟨_, hs⟩ := hcall
    subst hs
    exact ⟨rfl, rfl, rfl, rfl, rfl⟩
  | none =>
    rw [documentAtIndex_miss s i hlk] at hcall
    cases hc : s.cursor with
    | none =>
      rw [documentAtIndexBody_noCursor s i hc] at hcall
      simp at hcall
    | some cur =>
      cases hf : cur.fetch i with
      | found d2 =>
        rw [documentAtIndexBody_found s i cur d2 hc hf] at hcall
        simp only [Except.ok.injEq, Prod.mk.injEq] at hcall
        obtain ⟨_, hs⟩ := hcall
        subst hs
        exact ⟨rfl, rfl, rfl, hc, rfl⟩
      | indexError =>
        rw [documentAtIndexBody_indexError s i cur hc hf] at hcall
        by_cases h : cur.count < s.nDocs <;> simp [h] at hcall
      | pyMongoError =>
        rw [documentAtIndexBody_transport s i cur hc hf] at hcall
        simp at hcall

theorem dataFetched_eq_none (sA : ModelState) (doc : Doc) (col : Int)
    (role : Role) (h : pyListGet (updateHeader sA doc).header col = none) :
    dataFetched doc sA col role =
      Except.ok (PyValue.qvariant, updateHeader sA doc) := by
  simp only [dataFetched]
  rw [h]

theorem dataFetched_eq_walk (sA : ModelState) (doc : Doc) (col : Int)
    (role : Role) (key : String)
    (h : pyListGet (updateHeader sA doc).header col = some key) :
    dataFetched doc sA col role =
      match walkPath (BsonValue.doc doc) (pySplit (Char.ofNat 46) key) with
      | Except.error PyErr.keyError =>
          Except.ok (PyValue.qvariant, updateHeader sA doc)
      | Except.error e => Except.error e
      | Except.ok v => Except.ok (roleRender role v, updateHeader sA doc) := by
  simp only [dataFetched]
  rw [h]

theorem dataFetched_ok_state (sA : ModelState) (doc : Doc) (col : Int)
    (role : Role) (r : PyValue) (s1 : ModelState)
    (hcall : dataFetched doc sA col role = Except.ok (r, s1)) :
    s1 = updateHeader sA doc := by
  cases hpy : pyListGet (updateHeader sA doc).header col with
  | none =>
    rw [dataFetched_eq_none sA doc col role hpy] at hcall
    simp only [Except.ok.injEq, Prod.mk.injEq] at hcall
    exact hcall.2.symm
  | some key =>
    rw [dataFetched_eq_walk sA doc col role key hpy] at hcall
    cases hw : walkPath (BsonValue.doc doc) (pySplit (Char.ofNat 46) key) with
    | error e =>
      rw [hw] at hcall
      cases e with
      | keyError =>
        simp only [Except.ok.injEq, Prod.mk.injEq] at hcall
        exact hcall.2.symm
      | typeError => simp at hcall
    | ok v =>
      rw [hw] at hcall
      simp only [Except.ok.injEq, Prod.mk.injEq] at hcall
      exact hcall.2.symm

theorem dataFetched_second (sA tB : ModelState) (doc : Doc) (col : Int)
    (role : Role) (r : PyValue) (s1 : ModelState)
    (hcall : dataFetched doc sA col role = Except.ok (r, s1))
    (hmax : tB.maxNesting = sA.maxNesting)
    (hhead : tB.header = (updateHeader sA doc).header) :
    dataFetched doc tB col role = Except.ok (r, tB) := by
  have hnoop : updateHeader tB doc = tB := by
    apply updateHeader_noop
    intro k hk
    rw [hhead, updateHeader_mem]
    right
    rw [hmax] at hk
    exact hk
  cases hpy : pyListGet (updateHeader sA doc).header col with
  | none =>
    rw [dataFetched_eq_none sA doc col role hpy] at hcall
    simp only [Except.ok.injEq, Prod.mk.injEq] at hcall
    have hpy2 : pyListGet (updateHeader tB doc).header col = none := by
      rw [hnoop, hhead]
      exact hpy
    rw [dataFetched_eq_none tB doc col role hpy2, hnoop, ← hcall.1]
  | some key =>
    rw [dataFetched_eq_walk sA doc col role key hpy] at hcall
    have hpy2 : pyListGet (updateHeader tB doc).header col = some key := by
      rw [hnoop, hhead]
      exact hpy
    rw [dataFetched_eq_walk tB doc col role key hpy2, hnoop]
    cases hw : walkPath (BsonValue.doc doc) (pySplit (Char.ofNat 46) key) with
    | error e =>
      rw [hw] at hcall
      cases e with
      | keyError =>
        simp only [Except.ok.injEq, Prod.mk.injEq] at hcall ⊢
        exact ⟨hcall.1, trivial⟩
      | typeError => simp at hcall
    | ok v =>
      rw [hw] at hcall
      simp only [Except.ok.injEq, Prod.mk.injEq] at hcall ⊢
      exact ⟨hcall.1, trivial⟩

/-- A second `data` call with the same arguments, immediately after a
first one that did not raise, returns the same value and performs no
cursor fetch (the document comes from the instance cache). -/
theorem dataE_stable (s : ModelState) (row col : Int) (role : Role)
    (r : PyValue) (s1 : ModelState)
    (hsize : 1 ≤ s.cacheSize) (hnodup : s.header.Nodup)
    (hcall : dataE s row col role = Except.ok (r, s1)) :
    ∃ s2, dataE s1 row col role = Except.ok (r, s2) ∧
      s2.fetchCount = s1.fetchCount ∧ s2.header = s1.header := by
  by_cases hval : isValidIndex s row col = false
  · rw [dataE_invalid s row col role hval] at hcall
    simp only [Except.ok.injEq, Prod.mk.injEq] at hcall
    obtain ⟨hr, hs⟩ := hcall
    subst hr
    subst hs
    exact ⟨s, dataE_invalid s row col role hval, rfl, rfl⟩
  · have hvalT : isValidIndex s row col = true := by
      cases h : isValidIndex s row col
      · exact absurd h hval
      · rfl
    rw [dataE_valid s row col role hvalT] at hcall
    cases hdoc : documentAtIndex s row.toNat with
    | error e =>
      rw [hdoc] at hcall
      simp at hcall
    | ok p =>
      obtain ⟨v, sA⟩ := p
      rw [hdoc] at hcall
      have hlk := documentAtIndex_ok_lookup s row.toNat v sA hsize hdoc
      cases v with
      | none =>
        simp only [Except.ok.injEq, Prod.mk.injEq] at hcall
        obtain ⟨hr, hs⟩ := hcall
        subst hr
        subst hs
        by_cases hval2 : isValidIndex sA row col = false
        · exact ⟨sA, dataE_invalid sA row col role hval2, rfl, rfl⟩
        · have hval2T : isValidIndex sA row col = true := by
            cases h : isValidIndex sA row col
            · exact absurd h hval2
            · rfl
          rw [dataE_valid sA row col role hval2T,
              documentAtIndex_hit sA row.toNat none hlk.1]
          exact ⟨_, rfl, rfl, rfl⟩
      | some doc =>
        have hstate := dataFetched_ok_state sA doc col role r s1 hcall
        have hframe := documentAtIndex_some_frame s row.toNat doc sA hdoc
        have huf := updateHeader_frame sA doc
        have hAnodup : sA.header.Nodup := by
          rw [hframe.1]
          exact hnodup
        have hlen : s.header.length ≤ s1.header.length := by
          rw [hstate]
          calc s.header.length = sA.header.length := by rw [hframe.1]
            _ ≤ (updateHeader sA doc).header.length :=
                updateHeader_length_le sA doc hAnodup
        have hval2T : isValidIndex s1 row col = true := by
          apply isValidIndex_transfer s s1 row col hvalT
          · rw [hstate, huf.2.2.2.1, hframe.2.1]
          · exact hlen
        have hcache1 : lookupCache s1.cache row.toNat = some (some doc) := by
          rw [hstate, huf.2.2.2.2.1]
          exact hlk.1
        rw [dataE_valid s1 row col role hval2T,
            documentAtIndex_hit s1 row.toNat (some doc) hcache1]
        refine ⟨{ s1 with cache := cacheTouch s1.cache row.toNat (some doc) },
          ?_, rfl, rfl⟩
        have hmax : ModelState.maxNesting
            { s1 with cache := cacheTouch s1.cache row.toNat (some doc) } =
            sA.maxNesting := by
          show s1.maxNesting = sA.maxNesting
          rw [hstate, huf.1]
        have hhead : ModelState.header
            { s1 with cache := cacheTouch s1.cache row.toNat (some doc) } =
            (updateHeader sA doc).header := by
          show s1.header = (updateHeader sA doc).header
          rw [hstate]
        exact dataFetched_second sA
          { s1 with cache := cacheTouch s1.cache row.toNat (some doc) }
          doc col role r s1 hcall hmax hhead

/-! ### Python list indexing lemmas -/

theorem pyListGet_of_nonneg (l : List String) (i : Int) (h : 0 ≤ i) :
    pyListGet l i = l.get? i.toNat := by
  rw [pyListGet, if_pos h]

theorem pyListGet_of_ge (l : List String) (i : Int) (h : (l.length : Int) ≤ i) :
    pyListGet l i = none := by
  rw [pyListGet_of_nonneg l i (by omega)]
  exact List.get?_eq_none.mpr (by omega)

theorem pyListGet_of_lt_neg (l : List String) (i : Int)
    (h : i < -(l.length : Int)) :
    pyListGet l i = none := by
  rw [pyListGet, if_neg (by omega), if_neg (by omega)]

theorem pyListGet_of_neg (l : List String) (i : Int) (h : i < 0)
    (h2 : 0 ≤ (l.length : Int) + i) :
    pyListGet l i = l.get? ((l.length : Int) + i).toNat := by
  rw [pyListGet, if_neg (by omega), if_pos h2]

theorem headerData_horizontal (s : ModelState) (i : Int) :
    headerData s i QtOrientation.horizontal Role.display =
      match pyListGet s.header i with
      | some name => PyValue.str name
      | none => PyValue.qvariant := by
  simp [headerData]

theorem lookupCache_evictInsert_cleared_ne (size : Nat) (i j : Nat)
    (v : Option Doc) (h : j ≠ i) :
    lookupCache (cacheEvictInsert size [] i v) j = none := by
  cases size with
  | zero => simp [cacheEvictInsert, lookupCache]
  | succ n =>
    simp only [cacheEvictInsert, List.filter_nil, List.take_succ_cons,
      List.take_nil, lookupCache]
    rw [if_neg (fun hh => h hh.symm)]

/-! ### Claim theorems -/

/-- C1 (confirmed).  Deletion reconciliation: when a fetch at row `i`
misses the cache and the cursor raises index-unavailable, the call
re-queries the count from the cursor (exactly one count re-query), and if
the count `n1` shrank below the current row count it emits exactly one
begin/end remove-rows pair for the contiguous range `[n1, rowCount - 1]`
and updates `rowCount()` to `n1` (otherwise it emits nothing and keeps the
row count); it clears the entire document cache — every entry present
before the call is gone, the memoizer then records only the absent
result of this very call under `i` — and returns the absent sentinel. -/
theorem C1_deletion_reconciliation (s : ModelState) (cur : Cursor) (i : Nat)
    (hc : s.cursor = some cur) (hm : lookupCache s.cache i = none)
    (hf : cur.fetch i = FetchOutcome.indexError) :
    ∃ s1, documentAtIndex s i = Except.ok (none, s1) ∧
      s1.countQueries = s.countQueries + 1 ∧
      (cur.count < s.nDocs →
        rowCount s1 false = cur.count ∧
        s1.events = s.events ++
          [ModelEvent.beginRemoveRows cur.count (s.nDocs - 1),
           ModelEvent.endRemoveRows]) ∧
      (¬ cur.count < s.nDocs →
        rowCount s1 false = rowCount s false ∧ s1.events = s.events) ∧
      (∀ j, j ≠ i → lookupCache s1.cache j = none) := by
  rw [documentAtIndex_miss s i hm, documentAtIndexBody_indexError s i cur hc hf]
  by_cases hlt : cur.count < s.nDocs
  · rw [if_pos hlt]
    refine ⟨_, rfl, rfl, fun _ => ⟨rfl, rfl⟩, fun hn => absurd hlt hn, ?_⟩
    intro j hj
    exact lookupCache_evictInsert_cleared_ne _ _ _ _ hj
  · rw [if_neg hlt]
    refine ⟨_, rfl, rfl, fun h => absurd h hlt, fun _ => ⟨rfl, rfl⟩, ?_⟩
    intro j hj
    exact lookupCache_evictInsert_cleared_ne _ _ _ _ hj

/-- C1 witness: the reconciliation at the spec boundary example — three
believed rows, result set shrank to two, fetch at row 2 fails. -/
theorem C1_witness :
    documentAtIndex w1State 2 = Except.ok (none, w1Post) ∧
    w1Post.countQueries = w1State.countQueries + 1 ∧
    rowCount w1Post false = w1Cursor.count ∧
    w1Post.events = w1State.events ++
      [ModelEvent.beginRemoveRows 2 2, ModelEvent.endRemoveRows] ∧
    lookupCache w1Post.cache 0 = none := by
  obtain ⟨s1, h1, h2, h3, _, h5⟩ :=
    C1_deletion_reconciliation w1State w1Cursor 2 rfl rfl rfl
  have hcomp : documentAtIndex w1State 2 = Except.ok (none, w1Post) := rfl
  rw [hcomp] at h1
  simp only [Except.ok.injEq, Prod.mk.injEq, true_and] at h1
  subst h1
  exact ⟨hcomp, h2, (h3 (by decide)).1, (h3 (by decide)).2, h5 0 (by decide)⟩

/-- C2 (confirmed).  Immediately after `setQuery`: the row count equals
the count the store reports for the query, the column count is 1, the
header is exactly the identifier column, the cache is empty, and exactly
one begin/end model-reset pair was appended around the mutation. -/
theorem C2_setQuery_reset (s : ModelState) (db : MongoStore)
    (collection : String) (query : Doc) :
    rowCount (setQuery s db collection query) false =
      db.countDocuments collection query ∧
    columnCount (setQuery s db collection query) = 1 ∧
    (setQuery s db collection query).header = ["_id"] ∧
    (setQuery s db collection query).cache = [] ∧
    (setQuery s db collection query).events =
      s.events ++ [ModelEvent.beginResetModel, ModelEvent.endResetModel] := by
  refine ⟨rfl, rfl, rfl, rfl, ?_⟩
  simp [setQuery]

/-- C7 (confirmed).  Depth-bounded discovery: a key expands into the
sub-paths of its value exactly when the value is a nested document and the
remaining depth budget is positive; otherwise it stays one flat column.
On the spec example, maxNesting 1 discovers `_id`, `a.b`, `a.c` and not
`a`, while maxNesting 0 discovers `_id`, `a`. -/
theorem C7_nested_discovery_depth :
    (∀ (d : Nat) (root : Option String) (k : String) (sub rest : Doc),
        getKeys (d + 1) root ((k, BsonValue.doc sub) :: rest) =
          getKeys d (some (qualifyKey root k)) sub ++ getKeys (d + 1) root rest) ∧
    (∀ (d : Nat) (root : Option String) (k : String) (v : BsonValue) (rest : Doc),
        isDocValue v = false →
          getKeys d root ((k, v) :: rest) =
            qualifyKey root k :: getKeys d root rest) ∧
    (∀ (root : Option String) (k : String) (v : BsonValue) (rest : Doc),
        getKeys 0 root ((k, v) :: rest) =
          qualifyKey root k :: getKeys 0 root rest) ∧
    getKeys 1 none exampleNestedDoc = ["_id", "a.b", "a.c"] ∧
    "a" ∉ getKeys 1 none exampleNestedDoc ∧
    getKeys 0 none exampleNestedDoc = ["_id", "a"] := by
  refine ⟨?_, ?_, ?_, by decide, by decide, by decide⟩
  · intro d root k sub rest
    simp [getKeys]
  · intro d root k v rest hv
    cases d with
    | zero => simp [getKeys]
    | succ d => cases v <;> simp_all [getKeys, isDocValue]
  · intro root k v rest
    simp [getKeys]

/-- C7 witness: the expansion and flat cases at concrete inputs. -/
theorem C7_witness :
    getKeys 1 none [("a", BsonValue.doc [("b", BsonValue.int 2)])] =
      getKeys 0 (some "a") [("b", BsonValue.int 2)] ++ getKeys 1 none [] ∧
    getKeys 1 none [("a", BsonValue.int 5)] = "a" :: getKeys 1 none [] := by
  have h := C7_nested_discovery_depth
  exact ⟨h.1 0 none "a" [("b", BsonValue.int 2)] [],
         h.2.1 1 none "a" (BsonValue.int 5) [] (by decide)⟩

/-- C4 (confirmed).  Header invariant: starting from a sorted,
duplicate-free header, `updateHeader` leaves a sorted, duplicate-free
header whose members are exactly the previous members together with the
keys discovered from the document (so, inductively from the reset header,
the sorted duplicate-free union of the identifier column with everything
discovered so far); the header never shrinks; and the emitted events are
exactly one begin/end insert-columns pair per newly discovered key, each
at the index of that key in the header as updated at that step. -/
theorem C4_header_invariant (s : ModelState) (doc : Doc)
    (hsorted : s.header.Sorted (fun a b => strLe a b = true))
    (hnodup : s.header.Nodup) :
    (updateHeader s doc).header.Sorted (fun a b => strLe a b = true) ∧
    (updateHeader s doc).header.Nodup ∧
    (∀ k, k ∈ (updateHeader s doc).header ↔
        k ∈ s.header ∨ k ∈ getKeys s.maxNesting none doc) ∧
    s.header ⊆ (updateHeader s doc).header ∧
    (updateHeader s doc).events =
      s.events ++ insertEventTrace s.header (newHeaderKeys s doc) :=
  ⟨foldl_headerStep_sorted (newHeaderKeys s doc) s hsorted,
   foldl_headerStep_nodup (newHeaderKeys s doc) s hnodup,
   updateHeader_mem s doc,
   updateHeader_subset s doc,
   updateHeader_events s doc⟩

/-- C4 witness: inserting the key "b" into the reset header. -/
theorem C4_witness :
    (updateHeader c4State c4Doc).header.Sorted (fun a b => strLe a b = true) ∧
    (updateHeader c4State c4Doc).header.Nodup ∧
    ("b" ∈ (updateHeader c4State c4Doc).header ↔
        "b" ∈ c4State.header ∨ "b" ∈ getKeys c4State.maxNesting none c4Doc) ∧
    c4State.header ⊆ (updateHeader c4State c4Doc).header ∧
    (updateHeader c4State c4Doc).events =
      c4State.events ++ insertEventTrace c4State.header (newHeaderKeys c4State c4Doc) := by
  have h := C4_header_invariant c4State c4Doc (by decide) (by decide)
  exact ⟨h.1, h.2.1, h.2.2.1 "b", h.2.2.2.1, h.2.2.2.2⟩

/-- C5 (confirmed).  Memoization idempotence: a successful
`documentAtIndex` call leaves its result — including an explicit absent
result — stored under its row index, and an immediate second call returns
the stored value from the cache, with no cursor fetch (the fetch counter
is unchanged); likewise a cell lookup through `data` that returned without
raising returns the same value when repeated, again with no cursor fetch.
(The guarantee holds while the entry survives: capacity at least one,
no eviction or invalidation in between.) -/
theorem C5_memoization_idempotence :
    (∀ (s : ModelState) (i : Nat) (v : Option Doc) (s1 : ModelState),
        1 ≤ s.cacheSize →
        documentAtIndex s i = Except.ok (v, s1) →
        lookupCache s1.cache i = some v ∧
        documentAtIndex s1 i =
          Except.ok (v, { s1 with cache := cacheTouch s1.cache i v }) ∧
        ({ s1 with cache := cacheTouch s1.cache i v }).fetchCount = s1.fetchCount) ∧
    (∀ (s : ModelState) (row col : Int) (role : Role) (r : PyValue)
        (s1 : ModelState),
        1 ≤ s.cacheSize → s.header.Nodup →
        dataE s row col role = Except.ok (r, s1) →
        ∃ s2, dataE s1 row col role = Except.ok (r, s2) ∧
          s2.fetchCount = s1.fetchCount) := by
  constructor
  · intro s i v s1 hsize hcall
    have hlk := documentAtIndex_ok_lookup s i v s1 hsize hcall
    exact ⟨hlk.1, documentAtIndex_hit s1 i v hlk.1, rfl⟩
  · intro s row col role r s1 hsize hnodup hcall
    obtain ⟨s2, h1, h2, _⟩ := dataE_stable s row col role r s1 hsize hnodup hcall
    exact ⟨s2, h1, h2⟩

/-- C5 witness: a transport failure leaves an explicit absent marker in
the cache, and the immediate second call is a pure cache hit. -/
theorem C5_witness :
    lookupCache w5Post.cache 0 = some none ∧
    documentAtIndex w5Post 0 =
      Except.ok (none, { w5Post with cache := cacheTouch w5Post.cache 0 none }) ∧
    ({ w5Post with cache := cacheTouch w5Post.cache 0 none }).fetchCount =
      w5Post.fetchCount :=
  C5_memoization_idempotence.1 w5State 0 none w5Post (by decide) rfl

/-- C3 (code_bug).  The claim — and the spec — require every unresolvable
dotted path to yield the absent sentinel; the code only catches
`IndexError` and `KeyError`, so when a path prefix resolves to a
non-document value (here: header key "a.b" against a document whose "a"
is the scalar 5), subscripting the scalar raises `TypeError`, which
propagates out of `data`. -/
theorem C3_nonDict_prefix_raises :
    dataE c3State 0 2 Role.display = Except.error PyErr.typeError ∧
    (pyListGet c3State.header 2 = some "a.b") ∧
    lookupField c3Doc "a" = some (BsonValue.int 5) :=
  ⟨rfl, rfl, rfl⟩

/-- C6 (corrected, counterexample).  At cache capacity, memoizing the
absent result of a transport-failed fetch evicts an existing cache entry:
before the call row 0 is cached, after the call it is gone. -/
theorem C6_counterexample :
    lookupCache c6State.cache 0 = some (some c6Doc) ∧
    documentAtIndex c6State 1 = Except.ok (none, c6Post) ∧
    lookupCache c6Post.cache 0 = none :=
  ⟨rfl, rfl, rfl⟩

/-- C6 (corrected, amended).  A transport failure on a cache-missing
fetch returns the absent sentinel, issues no count re-query, emits no
notification, and leaves the row count and header unchanged; the cache is
not invalidated — the absent result is memoized like any other result,
which at capacity may evict the least recently used entry. -/
theorem C6_amended (s : ModelState) (cur : Cursor) (i : Nat)
    (hc : s.cursor = some cur) (hm : lookupCache s.cache i = none)
    (hf : cur.fetch i = FetchOutcome.pyMongoError) :
    ∃ s1, documentAtIndex s i = Except.ok (none, s1) ∧
      rowCount s1 false = rowCount s false ∧
      s1.header = s.header ∧
      s1.events = s.events ∧
      s1.countQueries = s.countQueries ∧
      s1.cache = cacheEvictInsert s.cacheSize s.cache i none := by
  refine ⟨{ s with
              fetchCount := s.fetchCount + 1
              cache := cacheEvictInsert s.cacheSize s.cache i none },
          ?_, rfl, rfl, rfl, rfl, rfl⟩
  rw [documentAtIndex_miss s i hm, documentAtIndexBody_transport s i cur hc hf]

/-- C6 witness: the amended statement at the capacity-1 exemplar. -/
theorem C6_witness :
    documentAtIndex c6State 1 = Except.ok (none, c6Post) ∧
    rowCount c6Post false = rowCount c6State false ∧
    c6Post.header = c6State.header ∧
    c6Post.events = c6State.events ∧
    c6Post.countQueries = c6State.countQueries ∧
    c6Post.cache = cacheEvictInsert c6State.cacheSize c6State.cache 1 none := by
  obtain ⟨s1, h1, h2, h3, h4, h5, h6⟩ := C6_amended c6State c6Cursor 1 rfl rfl rfl
  have hcomp : documentAtIndex c6State 1 = Except.ok (none, c6Post) := rfl
  rw [hcomp] at h1
  simp only [Except.ok.injEq, Prod.mk.injEq, true_and] at h1
  subst h1
  exact ⟨hcomp, h2, h3, h4, h5, h6⟩

/-- C8 (corrected, counterexample).  A freshly constructed model has an
empty header, so the identifier column is not present at all; and after a
query reset followed by discovery of the key "Apple" (which sorts before
"_id"), the identifier column sits at position 1, not 0. -/
theorem C8_counterexample :
    "_id" ∉ (initState 0 50).header ∧
    (updateHeader (setQuery (initState 0 50) c8Store "collection" [])
        [("Apple", BsonValue.int 1)]).header = ["Apple", "_id"] ∧
    (updateHeader (setQuery (initState 0 50) c8Store "collection" [])
        [("Apple", BsonValue.int 1)]).header.indexOf "_id" ≠ 0 := by
  refine ⟨by decide, by decide, by decide⟩

/-- C8 (corrected, amended).  Before the first query the header is empty;
from `setQuery` on, the identifier column is a member of the header (at
position 0 right after the reset) and membership is preserved by every
header update — but its position is its rank in the sorted header, not
necessarily 0. -/
theorem C8_amended :
    (∀ (m c : Nat), (initState m c).header = []) ∧
    (∀ (s : ModelState) (db : MongoStore) (coll : String) (q : Doc),
        "_id" ∈ (setQuery s db coll q).header ∧
        (setQuery s db coll q).header.indexOf "_id" = 0) ∧
    (∀ (s : ModelState) (doc : Doc), "_id" ∈ s.header →
        "_id" ∈ (updateHeader s doc).header) := by
  refine ⟨fun m c => rfl, fun s db coll q => ⟨?_, rfl⟩, ?_⟩
  · show "_id" ∈ ["_id"]
    exact List.mem_singleton.mpr rfl
  · intro s doc h
    rw [updateHeader_mem]
    exact Or.inl h

/-- C8 witness: membership preservation applied after discovering a key
that sorts before the identifier column. -/
theorem C8_witness :
    "_id" ∈ (updateHeader (setQuery (initState 0 50) c8Store "collection" [])
        [("Apple", BsonValue.int 1)]).header := by
  exact C8_amended.2.2 (setQuery (initState 0 50) c8Store "collection" [])
    [("Apple", BsonValue.int 1)] (by decide)

/-- C9 (corrected, counterexample).  The horizontal display header query
at index -1 returns the last header entry — Python negative indexing —
not the absent sentinel the claim demands for every negative index. -/
theorem C9_counterexample :
    headerData c9State (-1) QtOrientation.horizontal Role.display =
      PyValue.str "_id" ∧
    PyValue.str "_id" ≠ PyValue.qvariant :=
  ⟨rfl, fun h => PyValue.noConfusion h⟩

/-- C9 (corrected, amended).  The horizontal display header query returns
the entry at index `i` for `0 ≤ i < columnCount()`, the absent sentinel
for `i ≥ columnCount()` and for `i < -columnCount()`, and — by Python
negative indexing — the entry at `columnCount() + i` for
`-columnCount() ≤ i < 0`. -/
theorem C9_amended :
    (∀ (s : ModelState) (i : Int) (name : String), 0 ≤ i →
        s.header.get? i.toNat = some name →
        headerData s i QtOrientation.horizontal Role.display =
          PyValue.str name) ∧
    (∀ (s : ModelState) (i : Int), (columnCount s : Int) ≤ i →
        headerData s i QtOrientation.horizontal Role.display =
          PyValue.qvariant) ∧
    (∀ (s : ModelState) (i : Int), i < -(columnCount s : Int) →
        headerData s i QtOrientation.horizontal Role.display =
          PyValue.qvariant) ∧
    (∀ (s : ModelState) (i : Int) (name : String), i < 0 →
        0 ≤ (columnCount s : Int) + i →
        s.header.get? ((columnCount s : Int) + i).toNat = some name →
        headerData s i QtOrientation.horizontal Role.display =
          PyValue.str name) := by
  refine ⟨?_, ?_, ?_, ?_⟩
  · intro s i name h0 hget
    rw [headerData_horizontal, pyListGet_of_nonneg s.header i h0, hget]
  · intro s i h
    rw [headerData_horizontal, pyListGet_of_ge s.header i h]
  · intro s i h
    rw [headerData_horizontal, pyListGet_of_lt_neg s.header i h]
  · intro s i name hneg h0 hget
    simp only [columnCount] at hget
    rw [headerData_horizontal, pyListGet_of_neg s.header i hneg h0, hget]

/-- C9 witness: the amended characterization at in-range, past-the-end
and far-negative indices of a one-column header. -/
theorem C9_witness :
    headerData c9State 0 QtOrientation.horizontal Role.display =
      PyValue.str "_id" ∧
    headerData c9State 3 QtOrientation.horizontal Role.display =
      PyValue.qvariant ∧
    headerData c9State (-2) QtOrientation.horizontal Role.display =
      PyValue.qvariant := by
  refine ⟨C9_amended.1 c9State 0 "_id" (by decide) rfl,
          C9_amended.2.1 c9State 3 (by decide),
          C9_amended.2.2.1 c9State (-2) (by decide)⟩

theorem value_of_not_mem (s : ModelState) (i : Int) (field : String)
    (role : Role) (h : field ∉ s.header) :
    value s i field role = Except.ok (PyValue.pyNone, s) := by
  rw [value, if_neg]
  simp [h]

theorem value_of_mem (s : ModelState) (i : Int) (field : String)
    (role : Role) (h : field ∈ s.header) :
    value s i field role =
      dataE s i ((s.header.indexOf field : Nat) : Int) role := by
  rw [value, if_pos]
  simp [h]

theorem documentIdAtIndex_eq (s : ModelState) (i : Int) (v : PyValue)
    (s1 : ModelState) (h : value s i "_id" Role.user = Except.ok (v, s1)) :
    documentIdAtIndex s i = Except.ok (pyStr v, s1) := by
  rw [documentIdAtIndex, h]

/-- C10 (corrected, counterexample).  With `_id` in the header and the
sole row unavailable from the store, `documentIdAtIndex` returns the
string form of the absent `QVariant` sentinel — the default object repr —
which is not the string "None". -/
theorem C10_counterexample :
    documentIdAtIndex c10State 0 = Except.ok (qvariantStr, c10Post) ∧
    qvariantStr ≠ "None" :=
  ⟨rfl, by decide⟩

/-- C10 (corrected, amended).  `documentIdAtIndex` returns the literal
string "None" — the Python rendering of `None` — exactly when `_id` is
not yet a header key (for example on a freshly constructed model); when
`_id` is in the header and the document is unavailable — the row is out
of range, the fetch fails with a transport error, the row was deleted
out-of-band (the fetch raises index-unavailable and reconciliation runs),
or an absent result is already memoized for the row — it instead returns
the string form of the absent `QVariant` sentinel, which is never
"None". -/
theorem C10_amended :
    (∀ (s : ModelState) (i : Int), "_id" ∉ s.header →
        documentIdAtIndex s i = Except.ok ("None", s)) ∧
    (∀ (s : ModelState) (i : Int), "_id" ∈ s.header →
        (i < 0 ∨ (s.nDocs : Int) ≤ i) →
        documentIdAtIndex s i = Except.ok (qvariantStr, s)) ∧
    (∀ (s : ModelState) (cur : Cursor) (i : Int), "_id" ∈ s.header →
        0 ≤ i → i < (s.nDocs : Int) →
        s.cursor = some cur → lookupCache s.cache i.toNat = none →
        cur.fetch i.toNat = FetchOutcome.pyMongoError →
        documentIdAtIndex s i =
          Except.ok (qvariantStr,
            { s with
                fetchCount := s.fetchCount + 1
                cache := cacheEvictInsert s.cacheSize s.cache i.toNat none })) ∧
    (∀ (s : ModelState) (cur : Cursor) (i : Int), "_id" ∈ s.header →
        0 ≤ i → i < (s.nDocs : Int) →
        s.cursor = some cur → lookupCache s.cache i.toNat = none →
        cur.fetch i.toNat = FetchOutcome.indexError →
        ∃ s1, documentIdAtIndex s i = Except.ok (qvariantStr, s1)) ∧
    (∀ (s : ModelState) (i : Int), "_id" ∈ s.header →
        0 ≤ i → i < (s.nDocs : Int) →
        lookupCache s.cache i.toNat = some none →
        documentIdAtIndex s i =
          Except.ok (qvariantStr,
            { s with cache := cacheTouch s.cache i.toNat none })) ∧
    qvariantStr ≠ "None" := by
  refine ⟨?_, ?_, ?_, ?_, ?_, by decide⟩
  · intro s i h
    exact documentIdAtIndex_eq s i PyValue.pyNone s (value_of_not_mem s i "_id" Role.user h)
  · intro s i hmem hrange
    have hinv : isValidIndex s i ((s.header.indexOf "_id" : Nat) : Int) = false := by
      rw [Bool.eq_false_iff]
      intro h'
      simp only [isValidIndex, Bool.and_eq_true, decide_eq_true_eq] at h'
      omega
    have hv : value s i "_id" Role.user = Except.ok (PyValue.qvariant, s) := by
      rw [value_of_mem s i "_id" Role.user hmem,
          dataE_invalid s i _ Role.user hinv]
    exact documentIdAtIndex_eq s i PyValue.qvariant s hv
  · intro s cur i hmem h0 hlt hc hm hf
    have hidx : s.header.indexOf "_id" < s.header.length :=
      List.indexOf_lt_length.mpr hmem
    have hvalT : isValidIndex s i ((s.header.indexOf "_id" : Nat) : Int) = true := by
      simp only [isValidIndex, Bool.and_eq_true, decide_eq_true_eq]
      omega
    have hdata : dataE s i ((s.header.indexOf "_id" : Nat) : Int) Role.user =
        Except.ok (PyValue.qvariant,
          { s with
              fetchCount := s.fetchCount + 1
              cache := cacheEvictInsert s.cacheSize s.cache i.toNat none }) := by
      rw [dataE_valid s i _ Role.user hvalT,
          documentAtIndex_miss s i.toNat hm,
          documentAtIndexBody_transport s i.toNat cur hc hf]
    have hv : value s i "_id" Role.user = Except.ok (PyValue.qvariant,
        { s with
            fetchCount := s.fetchCount + 1
            cache := cacheEvictInsert s.cacheSize s.cache i.toNat none }) := by
      rw [value_of_mem s i "_id" Role.user hmem, hdata]
    exact documentIdAtIndex_eq s i PyValue.qvariant _ hv
  · intro s cur i hmem h0 hlt hc hm hf
    have hidx : s.header.indexOf "_id" < s.header.length :=
      List.indexOf_lt_length.mpr hmem
    have hvalT : isValidIndex s i ((s.header.indexOf "_id" : Nat) : Int) = true := by
      simp only [isValidIndex, Bool.and_eq_true, decide_eq_true_eq]
      omega
    by_cases hcnt : cur.count < s.nDocs
    · refine ⟨{ s with
                  fetchCount := s.fetchCount + 1
                  countQueries := s.countQueries + 1
                  events := s.events ++
                    [ModelEvent.beginRemoveRows cur.count (s.nDocs - 1),
                     ModelEvent.endRemoveRows]
                  nDocs := cur.count
                  cache := cacheEvictInsert s.cacheSize [] i.toNat none }, ?_⟩
      apply documentIdAtIndex_eq s i PyValue.qvariant
      rw [value_of_mem s i "_id" Role.user hmem,
          dataE_valid s i _ Role.user hvalT,
          documentAtIndex_miss s i.toNat hm,
          documentAtIndexBody_indexError s i.toNat cur hc hf, if_pos hcnt]
    · refine ⟨{ s with
                  fetchCount := s.fetchCount + 1
                  countQueries := s.countQueries + 1
                  cache := cacheEvictInsert s.cacheSize [] i.toNat none }, ?_⟩
      apply documentIdAtIndex_eq s i PyValue.qvariant
      rw [value_of_mem s i "_id" Role.user hmem,
          dataE_valid s i _ Role.user hvalT,
          documentAtIndex_miss s i.toNat hm,
          documentAtIndexBody_indexError s i.toNat cur hc hf, if_neg hcnt]
  · intro s i hmem h0 hlt hm
    have hidx : s.header.indexOf "_id" < s.header.length :=
      List.indexOf_lt_length.mpr hmem
    have hvalT : isValidIndex s i ((s.header.indexOf "_id" : Nat) : Int) = true := by
      simp only [isValidIndex, Bool.and_eq_true, decide_eq_true_eq]
      omega
    apply documentIdAtIndex_eq s i PyValue.qvariant
    rw [value_of_mem s i "_id" Role.user hmem,
        dataE_valid s i _ Role.user hvalT,
        documentAtIndex_hit s i.toNat none hm]

/-- C10 witness: the "None" rendering on a freshly constructed model, the
QVariant rendering on an out-of-range row, on an out-of-band deleted row
(index-unavailable fetch), and on a row whose absent result was already
memoized. -/
theorem C10_witness :
    documentIdAtIndex (initState 0 50) 0 =
      Except.ok ("None", initState 0 50) ∧
    documentIdAtIndex c10State 5 = Except.ok (qvariantStr, c10State) ∧
    documentIdAtIndex c10DelState 0 = Except.ok (qvariantStr, c10DelPost) ∧
    documentIdAtIndex c10CachedState 0 =
      Except.ok (qvariantStr,
        { c10CachedState with cache := cacheTouch c10CachedState.cache 0 none }) := by
  refine ⟨C10_amended.1 (initState 0 50) 0 (by decide),
          C10_amended.2.1 c10State 5 (by decide) (by decide), ?_,
          C10_amended.2.2.2.2.1 c10CachedState 0 (by decide) (by decide)
            (by decide) rfl⟩
  obtain ⟨s1, h⟩ :=
    C10_amended.2.2.2.1 c10DelState c10DelCursor 0 (by decide) (by decide)
      (by decide) rfl rfl rfl
  have hcomp : documentIdAtIndex c10DelState 0 =
      Except.ok (qvariantStr, c10DelPost) := rfl
  rw [hcomp] at h
  simp only [Except.ok.injEq, Prod.mk.injEq, true_and] at h
  subst h
  exact hcomp
